import Mathlib

/-!
Shallow embedding of the streaming-analytics core of the repository
`buzzline-03-schroder`, covering the two consumer pipelines:

* `src/consumers/csv_consumer_schroder.py`  – classroom-attendance alerts
  (`ATTENDANCE_DROP_CLASS` window/daily, `LATE_BURST_CLASS`,
  `CHRONIC_ABSENCE_STUDENT`);
* `src/consumers/json_consumer_schroder.py` – nutrition alerts
  (`CARB_SPIKE`, `UNDERFUEL_AFTER_WORKOUT`, `LATE_EATING`, `PROTEIN_GOAL`).

Modelling conventions:

* Python strings are `List Char`; Python `float` values are modelled as `ℚ`
  (the quantities compared by the rules are small exact decimals, so the
  rational comparison agrees with the IEEE-double comparison the code runs);
  Python `int` counters are `Nat`; instants are microseconds since the Unix
  epoch as `Int`.
* JSON-decoded field values are modelled by `PyVal` (null / bool / number /
  string leaves; nested arrays and objects do not occur in this data).
  A whole message is `Option RawRec`, `none` standing for a payload that
  `json.loads` rejects.
* `datetime.fromisoformat` is modelled for timestamps that carry an explicit
  UTC offset (or trailing `Z`/`z`); a timestamp with no offset would be
  interpreted by `astimezone` in the local zone of the host, which is outside the
  model, so the model treats it as unparseable.  The `America/New_York`
  conversion implements the post-2007 US daylight-saving rule of the tz
  database (second Sunday of March 02:00 → first Sunday of November 02:00),
  which covers every date this data uses.
* `defaultdict`s become association lists with an explicit default;
  `deque(maxlen=N)` becomes a list whose push drops from the left at
  capacity; the chronic-absence prune (`while q and q[0] < cutoff:
  q.popleft()`) becomes `List.dropWhile`.
* Kafka transport, env-var configuration and log formatting are outside the
  model; each alert the code logs with `logger.warning` becomes a value of an
  alert type carrying the data interpolated into the log line.
-/

/-! ### Python string helpers -/

/-- Whitespace stripped by `str.strip()` (ASCII subset, which is all the
data contains). -/
def isSpaceCh (c : Char) : Bool :=
  c = ' ' ∨ c = '\t' ∨ c = '\n' ∨ c = '\x0d' ∨ c = '\x0b' ∨ c = '\x0c'

/-- Model of `str.strip()`: drop leading and trailing whitespace. -/
def stripList (s : List Char) : List Char :=
  ((s.dropWhile isSpaceCh).reverse.dropWhile isSpaceCh).reverse

/-- Model of `str.lower()` on one character, ASCII range (the status vocabulary is ASCII). -/
def lowerCh (c : Char) : Char :=
  if 'A' ≤ c ∧ c ≤ 'Z' then Char.ofNat (c.toNat + 32) else c

/-- Model of `str.lower()`. -/
def lowerList (s : List Char) : List Char := s.map lowerCh

/-! ### Python values (JSON leaves) and their coercions -/

/-- A JSON-decoded Python value (leaves only; this data has no nested
arrays/objects in the fields the consumers read). -/
inductive PyVal where
  | vnull : PyVal
  | vbool : Bool → PyVal
  | vnum  : ℚ → PyVal
  | vstr  : List Char → PyVal
deriving DecidableEq, Repr

/-- Python truthiness (`bool(v)` / `if not v`). -/
def truthy : PyVal → Bool
  | .vnull => false
  | .vbool b => b
  | .vnum q => q ≠ 0
  | .vstr s => s ≠ []

/-- Truthiness of `rec.get(k)` (a missing key gives `None`, which is falsy). -/
def truthyOpt : Option PyVal → Bool
  | none => false
  | some v => truthy v

/-- Model of `rec.get(k) or ""`: the value if truthy, else the empty string. -/
def orEmptyStr (v : Option PyVal) : PyVal :=
  match v with
  | none => .vstr []
  | some w => if truthy w then w else .vstr []

/-- Model of `.strip()` on a Python value: succeeds only on strings
(`AttributeError` otherwise, surfacing as the per-message exception). -/
def pyStripVal : PyVal → Option (List Char)
  | .vstr s => some (stripList s)
  | _ => none

/-- Model of `(rec.get(k) or "").strip()`. -/
def getStrip (v : Option PyVal) : Option (List Char) :=
  pyStripVal (orEmptyStr v)

/-- The underlying string of a `PyVal`, when it is one (used where the code
calls a `str` method on a field it did not type-check). -/
def asStr : Option PyVal → Option (List Char)
  | some (.vstr s) => some s
  | _ => none

/-- Digit value of an ASCII digit character. -/
def charDigit (c : Char) : Option Nat :=
  if '0' ≤ c ∧ c ≤ '9' then some (c.toNat - 48) else none

/-- Read a run of decimal digits (at least one), returning the value, the
number of digits, and the rest. -/
def readDigitRun : List Char → Nat → Nat → Option (Nat × Nat × List Char)
  | [], acc, n => if n = 0 then none else some (acc, n, [])
  | c :: rest, acc, n =>
    match charDigit c with
    | some d => readDigitRun rest (acc * 10 + d) (n + 1)
    | none => if n = 0 then none else some (acc, n, c :: rest)

/-- Model of `float(s)` on a string: optional sign, digits with an optional decimal
point (digits on at least one side), optional exponent.  Non-finite literals
(`inf`, `nan`) are outside the model. -/
def pyFloatOfStr (s : List Char) : Option ℚ :=
  let t := stripList s
  let (sign, t) :=
    match t with
    | '+' :: r => ((1 : ℚ), r)
    | '-' :: r => ((-1 : ℚ), r)
    | r => ((1 : ℚ), r)
  let intPart := readDigitRun t 0 0
  let (ip, t2, hasInt) :=
    match intPart with
    | some (v, _, rest) => (v, rest, true)
    | none => (0, t, false)
  let fracPart :=
    match t2 with
    | '.' :: r =>
      match readDigitRun r 0 0 with
      | some (v, n, rest) => some (some (v, n), rest)
      | none => if hasInt then some (none, r) else none
    | r => some (none, r)
  match fracPart with
  | none => none
  | some (fr, t3) =>
    if !hasInt ∧ fr = none then none
    else
      let mantissa : ℚ :=
        match fr with
        | none => (ip : ℚ)
        | some (fv, fn) => (ip : ℚ) + (fv : ℚ) / ((10 : ℚ) ^ fn)
      match t3 with
      | [] => some (sign * mantissa)
      | 'e' :: r | 'E' :: r =>
        let (esign, r2) :=
          match r with
          | '+' :: rr => ((1 : Int), rr)
          | '-' :: rr => ((-1 : Int), rr)
          | rr => ((1 : Int), rr)
        match readDigitRun r2 0 0 with
        | some (ev, _, []) => some (sign * mantissa * (10 : ℚ) ^ (esign * (ev : Int)))
        | _ => none
      | _ => none

/-- Model of `float(v)`: numbers pass through, bools coerce to 0/1, numeric strings
parse, everything else raises (`None` included). -/
def pyFloat : PyVal → Option ℚ
  | .vnum q => some q
  | .vbool b => some (if b then 1 else 0)
  | .vstr s => pyFloatOfStr s
  | .vnull => none

/-! ### Calendar arithmetic (proleptic Gregorian, epoch day 0 = 1970-01-01) -/

def isLeap (y : Int) : Bool :=
  (Int.emod y 4 = 0 ∧ Int.emod y 100 ≠ 0) ∨ Int.emod y 400 = 0

def daysInMonth (y m : Int) : Int :=
  if m = 2 then (if isLeap y then 29 else 28)
  else if m = 4 ∨ m = 6 ∨ m = 9 ∨ m = 11 then 30
  else 31

/-- Days since 1970-01-01 of a civil date (Gregorian). -/
def daysFromCivil (y m d : Int) : Int :=
  let y' := y - (if m ≤ 2 then 1 else 0)
  let era := Int.fdiv y' 400
  let yoe := y' - era * 400
  let mp := Int.emod (m + 9) 12
  let doy := Int.fdiv (153 * mp + 2) 5 + d - 1
  let doe := yoe * 365 + Int.fdiv yoe 4 - Int.fdiv yoe 100 + doy
  era * 146097 + doe - 719468

/-- Civil date (year, month, day) of an epoch day. -/
def civilFromDays (z : Int) : Int × Int × Int :=
  let z' := z + 719468
  let era := Int.fdiv z' 146097
  let doe := z' - era * 146097
  let yoe := Int.fdiv (doe - Int.fdiv doe 1460 + Int.fdiv doe 36524 - Int.fdiv doe 146096) 365
  let y := yoe + era * 400
  let doy := doe - (365 * yoe + Int.fdiv yoe 4 - Int.fdiv yoe 100)
  let mp := Int.fdiv (5 * doy + 2) 153
  let d := doy - Int.fdiv (153 * mp + 2) 5 + 1
  let m := mp + (if mp < 10 then 3 else -9)
  (y + (if m ≤ 2 then 1 else 0), m, d)

def microPerSec : Int := 1000000

def microPerHour : Int := 3600 * microPerSec

def microPerDay : Int := 24 * microPerHour

/-- Day of week of an epoch day, 0 = Sunday (1970-01-01 was a Thursday). -/
def dayOfWeek (z : Int) : Int := Int.emod (z + 4) 7

/-- Day-of-month of the first Sunday of a month. -/
def firstSundayDom (y m : Int) : Int :=
  1 + Int.emod (7 - dayOfWeek (daysFromCivil y m 1)) 7

/-- Epoch day of the US spring-forward transition of year `y`
(second Sunday of March). -/
def springForwardDay (y : Int) : Int :=
  daysFromCivil y 3 (firstSundayDom y 3 + 7)

/-- Epoch day of the US fall-back transition of year `y`
(first Sunday of November). -/
def fallBackDay (y : Int) : Int :=
  daysFromCivil y 11 (firstSundayDom y 11)

/-- UTC offset (in microseconds) of `America/New_York` at a UTC instant:
EDT (−4 h) from 07:00 UTC on the second Sunday of March to 06:00 UTC on the
first Sunday of November, EST (−5 h) otherwise (post-2007 rule). -/
def nyOffsetFromUtc (utc : Int) : Int :=
  let y := (civilFromDays (Int.fdiv utc microPerDay)).1
  let springUtc := springForwardDay y * microPerDay + 7 * microPerHour
  let fallUtc := fallBackDay y * microPerDay + 6 * microPerHour
  if springUtc ≤ utc ∧ utc < fallUtc then -4 * microPerHour else -5 * microPerHour

/-- UTC offset (in microseconds) that `America/New_York` assigns to a naive
local wall-clock reading with `fold=0` (PEP 495): EDT wall times run from
03:00 on the second Sunday of March to 02:00 on the first Sunday of November;
ambiguous and nonexistent readings take the pre-transition offset. -/
def nyOffsetFromWall (wall : Int) : Int :=
  let y := (civilFromDays (Int.fdiv wall microPerDay)).1
  let springWall := springForwardDay y * microPerDay + 3 * microPerHour
  let fallWall := fallBackDay y * microPerDay + 2 * microPerHour
  if springWall ≤ wall ∧ wall < fallWall then -4 * microPerHour else -5 * microPerHour

/-- An aware `datetime` in `America/New_York`: the instant (microseconds UTC
since the epoch) plus its local wall-clock reading.  Aware datetimes compare
by instant. -/
structure AwareDT where
  utcMicro : Int
  wallMicro : Int
deriving DecidableEq, Repr

/-- Model of `dt.astimezone(ZoneInfo("America/New_York"))` of an aware datetime with
instant `utc`. -/
def astimezoneNY (utc : Int) : AwareDT :=
  ⟨utc, utc + nyOffsetFromUtc utc⟩

/-- Model of `dt - timedelta(...)` on an aware datetime: the subtraction acts on the
wall-clock fields and the offset of the result is recomputed from the new wall
reading (`fold=0`). -/
def subWall (dt : AwareDT) (deltaMicro : Int) : AwareDT :=
  let w := dt.wallMicro - deltaMicro
  ⟨w - nyOffsetFromWall w, w⟩

/-- Model of `dt.date()` as an epoch-day key (stands for the `YYYY-MM-DD` string the
code uses: the two are in bijection). -/
def dateKeyOf (dt : AwareDT) : Int := Int.fdiv dt.wallMicro microPerDay

/-- Model of `dt.hour`. -/
def hourOf (dt : AwareDT) : Int :=
  Int.fdiv (Int.emod dt.wallMicro microPerDay) microPerHour

/-! ### `datetime.fromisoformat` (offset-bearing timestamps) -/

/-- Read exactly `n` decimal digits. -/
def readFixed : Nat → Nat → List Char → Option (Nat × List Char)
  | 0, acc, l => some (acc, l)
  | n + 1, acc, c :: l =>
    match charDigit c with
    | some d => readFixed n (acc * 10 + d) l
    | none => none
  | _ + 1, _, [] => none

def expectChar (c : Char) : List Char → Option (List Char)
  | c' :: l => if c' = c then some l else none
  | [] => none

/-- Optional `:SS[.ffffff]` part: returns (seconds, microseconds, rest). -/
def readSecondsFrac (l : List Char) : Option (Nat × Nat × List Char) :=
  match l with
  | ':' :: r =>
    match readFixed 2 0 r with
    | none => none
    | some (s, r2) =>
      match r2 with
      | '.' :: r3 | ',' :: r3 =>
        match readDigitRun r3 0 0 with
        | some (v, n, r4) =>
          -- scale the fraction to microseconds (truncating past 6 digits)
          let micro := if n ≤ 6 then v * 10 ^ (6 - n) else v / 10 ^ (n - 6)
          some (s, micro, r4)
        | none => none
      | _ => some (s, 0, r2)
  | _ => some (0, 0, l)

/-- UTC offset suffix in microseconds: `±HH[:MM[:SS]]`, `±HHMM`, or a bare
`Z`/`z`.  An absent offset yields `none` (a naive result would be
interpreted in the host zone, outside the model). -/
def readOffset (l : List Char) : Option Int :=
  match l with
  | ['Z'] => some 0
  | ['z'] => some 0
  | c :: r =>
    if c = '+' ∨ c = '-' then
      let sgn : Int := if c = '+' then 1 else -1
      match readFixed 2 0 r with
      | none => none
      | some (hh, r2) =>
        if hh ≥ 24 then none
        else
          match r2 with
          | [] => some (sgn * (hh : Int) * microPerHour)
          | ':' :: r3 =>
            match readFixed 2 0 r3 with
            | none => none
            | some (mm, r4) =>
              if mm ≥ 60 then none
              else
                match r4 with
                | [] => some (sgn * ((hh : Int) * 60 + mm) * 60 * microPerSec)
                | ':' :: r5 =>
                  match readFixed 2 0 r5 with
                  | some (ss, []) =>
                    if ss ≥ 60 then none
                    else some (sgn * (((hh : Int) * 60 + mm) * 60 + ss) * microPerSec)
                  | _ => none
                | _ => none
          | _ =>
            match readFixed 2 0 r2 with
            | some (mm, []) =>
              if mm ≥ 60 then none
              else some (sgn * ((hh : Int) * 60 + mm) * 60 * microPerSec)
            | _ => none
    else none
  | [] => none

/-- Model of a `datetime.fromisoformat(ts)` call, returned as the UTC instant in microseconds:
parses `YYYY-MM-DD<sep>HH:MM[:SS[.ffffff]]<offset>` and returns the UTC
instant.  Returns `none` on anything `fromisoformat` rejects, and on
offset-free timestamps (see module comment). -/
def fromisoformatUtc (l : List Char) : Option Int :=
  match readFixed 4 0 l with
  | none => none
  | some (y, l1) =>
    match expectChar '-' l1 with
    | none => none
    | some l2 =>
      match readFixed 2 0 l2 with
      | none => none
      | some (mo, l3) =>
        match expectChar '-' l3 with
        | none => none
        | some l4 =>
          match readFixed 2 0 l4 with
          | none => none
          | some (d, l5) =>
            match l5 with
            | [] => none
            | _sep :: l6 =>
              match readFixed 2 0 l6 with
              | none => none
              | some (h, l7) =>
                match expectChar ':' l7 with
                | none => none
                | some l8 =>
                  match readFixed 2 0 l8 with
                  | none => none
                  | some (mi, l9) =>
                    match readSecondsFrac l9 with
                    | none => none
                    | some (s, micro, l10) =>
                      match readOffset l10 with
                      | none => none
                      | some off =>
                        if 1 ≤ y ∧ 1 ≤ mo ∧ mo ≤ 12 ∧ 1 ≤ d ∧
                           (d : Int) ≤ daysInMonth y mo ∧ h ≤ 23 ∧ mi ≤ 59 ∧ s ≤ 59 then
                          some (daysFromCivil y mo d * microPerDay
                                + ((h : Int) * 3600 + (mi : Int) * 60 + s) * microPerSec
                                + micro - off)
                        else none

def plusZeroOffset : List Char := ['+', '0', '0', ':', '0', '0']

/-- The `if ts.endswith("Z"): ts = ts[:-1] + "+00:00"` preprocessing shared
by both consumers. -/
def rewriteZ (ts : List Char) : List Char :=
  if ts.getLast? = some 'Z' then ts.dropLast ++ plusZeroOffset else ts

/-- Model of `parse_ts_to_local` of `csv_consumer_schroder.py`: rewrite a trailing
`Z`, `fromisoformat`, then `astimezone(America/New_York)`. -/
def parse_ts_to_local (ts : List Char) : Option AwareDT :=
  (fromisoformatUtc (rewriteZ ts)).map astimezoneNY

/-- Model of `parse_ts_utc_to_local` of `json_consumer_schroder.py` (same algorithm,
defined separately in that file). -/
def parse_ts_utc_to_local (ts : List Char) : Option AwareDT :=
  (fromisoformatUtc (rewriteZ ts)).map astimezoneNY

/-! ### Attendance consumer (`csv_consumer_schroder.py`) -/

/-- Association-list read with a default (`defaultdict` lookup). -/
def alistGet {K V : Type} [DecidableEq K] : List (K × V) → K → V → V
  | [], _, d => d
  | (k', v) :: rest, k, d => if k = k' then v else alistGet rest k d

/-- Association-list write (`dict` assignment). -/
def alistSet {K V : Type} [DecidableEq K] : List (K × V) → K → V → List (K × V)
  | [], k, v => [(k, v)]
  | (k', v') :: rest, k, v =>
    if k = k' then (k, v) :: rest else (k', v') :: alistSet rest k v

/-- Tunables of the attendance consumer at their defaults. -/
def ROLLING_WINDOW_SIZE : Nat := 10

def ATTENDANCE_RATE_THRESHOLD : ℚ := 0.85

def CHRONIC_WINDOW_DAYS : Int := 7

def CHRONIC_ABSENCES_THRESHOLD : Nat := 2

def LATE_BURST_THRESHOLD : Nat := 3

def presentStr : List Char := "present".toList

def lateStr : List Char := "late".toList

def absentStr : List Char := "absent".toList

/-- Model of `deque(maxlen=ROLLING_WINDOW_SIZE).append`: push on the right, dropping
from the left at capacity. -/
def pushWin (w : List (List Char)) (s : List Char) : List (List Char) :=
  let w2 := w ++ [s]
  if ROLLING_WINDOW_SIZE < w2.length then w2.drop (w2.length - ROLLING_WINDOW_SIZE) else w2

/-- Daily per-course counters (`{"present": 0, "late": 0, "absent": 0,
"total": 0}`). -/
structure Counts where
  present : Nat
  late : Nat
  absent : Nat
  total : Nat
deriving DecidableEq, Repr

def defaultCounts : Counts := ⟨0, 0, 0, 0⟩

/-- Model of `daily_course_counts[key_cd][status] += 1` (the status is one of the
three validated values when this runs). -/
def bumpStatus (c : Counts) (s : List Char) : Counts :=
  if s = presentStr then { c with present := c.present + 1 }
  else if s = lateStr then { c with late := c.late + 1 }
  else if s = absentStr then { c with absent := c.absent + 1 }
  else c

/-- Model of `attendance_rate_from_deque`: fraction of the window that is `present`
or `late`; `1.0` on an empty window. -/
def attendance_rate_from_deque (dq : List (List Char)) : ℚ :=
  if dq = [] then 1
  else ((dq.countP (fun s => s = presentStr ∨ s = lateStr)) : ℚ) / (dq.length : ℚ)

/-- Model of `attendance_rate_daily`: `(present+late)/total`, `1.0` when `total` is
`0`. -/
def attendance_rate_daily (counts : Counts) : ℚ :=
  if counts.total = 0 then 1
  else ((counts.present : ℚ) + (counts.late : ℚ)) / (counts.total : ℚ)

/-- Model of `prune_old_absences`: drop from the front while the head is strictly
before `now_local - timedelta(days=CHRONIC_WINDOW_DAYS)` (aware datetimes
compare by instant). -/
def prune_old_absences (abs_q : List AwareDT) (now_local : AwareDT) : List AwareDT :=
  let cutoff := subWall now_local (CHRONIC_WINDOW_DAYS * microPerDay)
  abs_q.dropWhile (fun e => e.utcMicro < cutoff.utcMicro)

/-- The mutable module-level state of the attendance consumer. -/
structure AttState where
  course_windows : List (List Char × List (List Char))
  daily_course_counts : List ((List Char × Int) × Counts)
  late_per_course_day : List ((List Char × Int) × Nat)
  student_absences : List (List Char × List AwareDT)
deriving DecidableEq, Repr

def initAttState : AttState := ⟨[], [], [], []⟩

/-- One alert line logged by the attendance consumer, with the data the log
line interpolates. -/
inductive AttAlert where
  | drop_window (course : List Char) (rate : ℚ)
  | drop_daily (course : List Char) (date : Int) (rate : ℚ)
  | late_burst (course : List Char) (date : Int) (lates : Nat)
  | chronic (student : List Char) (count : Nat)
deriving DecidableEq, Repr

/-- A raw attendance message after `json.loads`: the four fields the code
reads, each possibly missing. -/
structure AttRaw where
  ts : Option PyVal
  student : Option PyVal
  course : Option PyVal
  status : Option PyVal
deriving DecidableEq, Repr

/-- A validated attendance event as the body of `process_message` sees it:
stripped student/course, stripped+lowered status, parsed local datetime. -/
structure AttEvent where
  student : List Char
  course : List Char
  status : List Char
  local_dt : AwareDT
deriving DecidableEq, Repr

/-- The extraction/validation prefix of `process_message`
(`csv_consumer_schroder.py` lines 110–121): field extraction with
`(… or "").strip()` (and `.lower()` for the status), the
`if not ts or not course or not student or status not in (...)` guard, and
the timestamp parse.  `none` means the message is dropped with no state
change (failed guard, or an exception reaching the handler). -/
def validEvent? (msg : Option AttRaw) : Option AttEvent :=
  match msg with
  | none => none
  | some rec =>
    match getStrip rec.student, getStrip rec.course, getStrip rec.status with
    | some student, some course, some status0 =>
      let status := lowerList status0
      if truthyOpt rec.ts = false ∨ course = [] ∨ student = [] ∨
         (status ≠ presentStr ∧ status ≠ lateStr ∧ status ≠ absentStr) then
        none
      else
        match asStr rec.ts with
        | none => none
        | some tsStr =>
          match parse_ts_to_local tsStr with
          | none => none
          | some local_dt => some ⟨student, course, status, local_dt⟩
    | _, _, _ => none

/-- The update-then-alert body of `process_message`
(`csv_consumer_schroder.py` lines 128–172), run only for a validated
event: rolling-window append, daily-count increments, then the
window-drop, daily-drop, late-burst and chronic-absence rules in source
order. -/
def applyAttEvent (st : AttState) (e : AttEvent) : AttState × List AttAlert :=
  let local_date := dateKeyOf e.local_dt
  let cw := pushWin (alistGet st.course_windows e.course []) e.status
  let windows := alistSet st.course_windows e.course cw
  let key_cd := (e.course, local_date)
  let cnt := bumpStatus
    (let c0 := alistGet st.daily_course_counts key_cd defaultCounts
     { c0 with total := c0.total + 1 }) e.status
  let daily := alistSet st.daily_course_counts key_cd cnt
  let a1 :=
    if cw.length = ROLLING_WINDOW_SIZE ∧
       attendance_rate_from_deque cw < ATTENDANCE_RATE_THRESHOLD then
      [AttAlert.drop_window e.course (attendance_rate_from_deque cw)] else []
  let a2 :=
    if attendance_rate_daily cnt < ATTENDANCE_RATE_THRESHOLD then
      [AttAlert.drop_daily e.course local_date (attendance_rate_daily cnt)] else []
  let nLate := alistGet st.late_per_course_day key_cd 0 + 1
  let late' :=
    if e.status = lateStr then alistSet st.late_per_course_day key_cd nLate
    else st.late_per_course_day
  let a3 :=
    if e.status = lateStr ∧ LATE_BURST_THRESHOLD ≤ nLate then
      [AttAlert.late_burst e.course local_date nLate] else []
  let q := prune_old_absences
    (alistGet st.student_absences e.student [] ++ [e.local_dt]) e.local_dt
  let abs' :=
    if e.status = absentStr then alistSet st.student_absences e.student q
    else st.student_absences
  let a4 :=
    if e.status = absentStr ∧ CHRONIC_ABSENCES_THRESHOLD ≤ q.length then
      [AttAlert.chronic e.student q.length] else []
  (⟨windows, daily, late', abs'⟩, a1 ++ a2 ++ a3 ++ a4)

/-- Model of `process_message` of `csv_consumer_schroder.py`: validate, then update
stores and evaluate the rules; any rejection or exception leaves every
store untouched and emits nothing. -/
def process_message_csv (st : AttState) (msg : Option AttRaw) : AttState × List AttAlert :=
  match validEvent? msg with
  | none => (st, [])
  | some e => applyAttEvent st e

/-- The consumer loop: feed a list of messages through
`process_message_csv`, collecting the alerts in order. -/
def runAtt (st : AttState) : List (Option AttRaw) → AttState × List AttAlert
  | [] => (st, [])
  | m :: ms =>
    let r1 := process_message_csv st m
    let r2 := runAtt r1.1 ms
    (r2.1, r1.2 ++ r2.2)

/-! ### Nutrition consumer (`json_consumer_schroder.py`) -/

/-- Tunables of the nutrition consumer (hard-coded in the source). -/
def NUT_ROLLING_WINDOW_SIZE : Nat := 8

def PROTEIN_GOAL_G : ℚ := 160

def GOAL_CUTOFF_HOUR : Int := 20

def LATE_EATING_HOUR : Int := 22

def UNDERFUEL_KCAL_2_MEALS : ℚ := 500

def CARB_SPIKE_G : ℚ := 90

def unknownStr : List Char := "unknown".toList

/-- A raw nutrition message after `json.loads`. -/
structure NutRaw where
  ts : Option PyVal
  meal : Option PyVal
  protein_g : Option PyVal
  carb_g : Option PyVal
  fat_g : Option PyVal
  kcal : Option PyVal
  training_day : Option PyVal
deriving DecidableEq, Repr

/-- A validated nutrition event: the typed record the body of
`process_message` works with.  `meal` is kept as the raw value the way the
code keeps it (it is only defaulted, never coerced). -/
structure NutEvent where
  ts : List Char
  meal : PyVal
  protein_g : ℚ
  carb_g : ℚ
  fat_g : ℚ
  kcal : ℚ
  training_day : Bool
  local_dt : AwareDT
deriving DecidableEq, Repr

/-- Model of `float(record.get(k, 0))`: an absent field defaults to `0`; a present
value goes through `float(...)`, whose failure is the per-message
exception. -/
def floatOrZero (v : Option PyVal) : Option ℚ :=
  match v with
  | none => some 0
  | some pv => pyFloat pv

/-- The extraction/validation prefix of the nutrition `process_message`
(`json_consumer_schroder.py` lines 80–93): field defaults and coercions,
the `if not ts` skip, and the timestamp parse.  `none` means the message is
dropped with no state change. -/
def validNut? (msg : Option NutRaw) : Option NutEvent :=
  match msg with
  | none => none
  | some rec =>
    match floatOrZero rec.protein_g, floatOrZero rec.carb_g,
          floatOrZero rec.fat_g, floatOrZero rec.kcal with
    | some protein_g, some carb_g, some fat_g, some kcal =>
      let meal := (rec.meal).getD (.vstr unknownStr)
      let training_day := truthy ((rec.training_day).getD (.vbool false))
      if truthyOpt rec.ts = false then none
      else
        match asStr rec.ts with
        | none => none
        | some tsStr =>
          match parse_ts_utc_to_local tsStr with
          | none => none
          | some local_dt =>
            some ⟨tsStr, meal, protein_g, carb_g, fat_g, kcal, training_day, local_dt⟩
    | _, _, _, _ => none

/-- An entry of the `recent` deque (the record the code appends, minus the
redundant `local_dt`/`ts` bookkeeping it never reads back except `kcal`). -/
structure NutEntry where
  meal : PyVal
  protein_g : ℚ
  carb_g : ℚ
  fat_g : ℚ
  kcal : ℚ
  training_day : Bool
deriving DecidableEq, Repr

def entryOf (e : NutEvent) : NutEntry :=
  ⟨e.meal, e.protein_g, e.carb_g, e.fat_g, e.kcal, e.training_day⟩

/-- Model of `deque(maxlen=8).append`. -/
def pushRecent (w : List NutEntry) (x : NutEntry) : List NutEntry :=
  let w2 := w ++ [x]
  if NUT_ROLLING_WINDOW_SIZE < w2.length then w2.drop (w2.length - NUT_ROLLING_WINDOW_SIZE) else w2

/-- Daily nutrition totals (`{"protein_g": 0.0, "carb_g": 0.0, "fat_g": 0.0,
"kcal": 0.0}`). -/
structure Totals where
  protein_g : ℚ
  carb_g : ℚ
  fat_g : ℚ
  kcal : ℚ
deriving DecidableEq, Repr

def defaultTotals : Totals := ⟨0, 0, 0, 0⟩

/-- The mutable module-level state of the nutrition consumer.
`protein_goal_announced` is the `defaultdict(bool)` latch. -/
structure NutState where
  recent : List NutEntry
  daily_totals : List (Int × Totals)
  protein_goal_announced : List (Int × Bool)
deriving DecidableEq, Repr

def initNutState : NutState := ⟨[], [], []⟩

/-- One alert line logged by the nutrition consumer.  `protein_goal` is
tagged with the local date of the event that latched it. -/
inductive NutAlert where
  | carb_spike (meal : PyVal) (carb : ℚ)
  | underfuel (kcalLastTwo : ℚ)
  | late_eating (kcal : ℚ) (meal : PyVal)
  | protein_goal (date : Int) (protein : ℚ)
deriving DecidableEq, Repr

/-- Model of `recent[-1]["kcal"] + recent[-2]["kcal"]` (read under the
`len(recent) >= 2` guard). -/
def kcalLastTwo (w : List NutEntry) : ℚ :=
  ((w.getLast?).map NutEntry.kcal).getD 0 + ((w.dropLast.getLast?).map NutEntry.kcal).getD 0

/-- The update-then-alert body of the nutrition `process_message`
(`json_consumer_schroder.py` lines 97–143): rolling-window append, daily
totals, then the carb-spike, underfuel, late-eating and latched
protein-goal rules in source order. -/
def applyNutEvent (st : NutState) (e : NutEvent) : NutState × List NutAlert :=
  let local_date := dateKeyOf e.local_dt
  let recent1 := pushRecent st.recent (entryOf e)
  let t0 := alistGet st.daily_totals local_date defaultTotals
  let t1 : Totals := ⟨t0.protein_g + e.protein_g, t0.carb_g + e.carb_g,
                      t0.fat_g + e.fat_g, t0.kcal + e.kcal⟩
  let daily := alistSet st.daily_totals local_date t1
  let a1 :=
    if CARB_SPIKE_G ≤ e.carb_g then [NutAlert.carb_spike e.meal e.carb_g] else []
  let a2 :=
    if e.training_day ∧ 2 ≤ recent1.length ∧
       kcalLastTwo recent1 < UNDERFUEL_KCAL_2_MEALS then
      [NutAlert.underfuel (kcalLastTwo recent1)] else []
  let a3 :=
    if LATE_EATING_HOUR ≤ hourOf e.local_dt ∧ 500 ≤ e.kcal then
      [NutAlert.late_eating e.kcal e.meal] else []
  let ann' :=
    if GOAL_CUTOFF_HOUR ≤ hourOf e.local_dt ∧ PROTEIN_GOAL_G ≤ t1.protein_g ∧
       alistGet st.protein_goal_announced local_date false = false then
      alistSet st.protein_goal_announced local_date true
    else st.protein_goal_announced
  let a4 :=
    if GOAL_CUTOFF_HOUR ≤ hourOf e.local_dt ∧ PROTEIN_GOAL_G ≤ t1.protein_g ∧
       alistGet st.protein_goal_announced local_date false = false then
      [NutAlert.protein_goal local_date t1.protein_g]
    else []
  (⟨recent1, daily, ann'⟩, a1 ++ a2 ++ a3 ++ a4)

/-- Model of `process_message` of `json_consumer_schroder.py`. -/
def process_message_json (st : NutState) (msg : Option NutRaw) : NutState × List NutAlert :=
  match validNut? msg with
  | none => (st, [])
  | some e => applyNutEvent st e

/-- The consumer loop for the nutrition pipeline. -/
def runNut (st : NutState) : List (Option NutRaw) → NutState × List NutAlert
  | [] => (st, [])
  | m :: ms =>
    let r1 := process_message_json st m
    let r2 := runNut r1.1 ms
    (r2.1, r1.2 ++ r2.2)

/-- The shorthand the statements below use for the post-append rolling
window of the course of the event. -/
def newWindow (st : AttState) (e : AttEvent) : List (List Char) :=
  pushWin (alistGet st.course_windows e.course []) e.status

/-- The late counter of the (course, date) pair of the event after the
increment for this event. -/
def newLateCount (st : AttState) (e : AttEvent) : Nat :=
  alistGet st.late_per_course_day (e.course, dateKeyOf e.local_dt) 0 + 1

/-- Model of `recordAbsence` of the spec (§4.5): append the instant of the event to the
log of the student, then prune from the front. -/
def recordAbsence (q : List AwareDT) (now : AwareDT) : List AwareDT :=
  prune_old_absences (q ++ [now]) now

/-- The absence log of the student after the append-and-prune of this event. -/
def newAbsLog (st : AttState) (e : AttEvent) : List AwareDT :=
  recordAbsence (alistGet st.student_absences e.student []) e.local_dt

/-- Number of messages in `msgs` that validate to an event of course `c`. -/
def countCourseEvents (msgs : List (Option AttRaw)) (c : List Char) : Nat :=
  msgs.countP (fun m => match validEvent? m with
    | some e => decide (e.course = c)
    | none => false)

/-- Number of messages in `msgs` that validate to a `late` event for the
(course, local date) pair `(c, d)`. -/
def countLateEvents (msgs : List (Option AttRaw)) (c : List Char) (d : Int) : Nat :=
  msgs.countP (fun m => match validEvent? m with
    | some e => decide (e.course = c ∧ dateKeyOf e.local_dt = d ∧ e.status = lateStr)
    | none => false)

/-- Absence message for student `"bo"`, course `"Alg"`, at the given
timestamp. -/
def absenceMsg (ts : List Char) : Option AttRaw :=
  some ⟨some (.vstr ts), some (.vstr "bo".toList), some (.vstr "Alg".toList),
        some (.vstr "absent".toList)⟩

def day0Ts : List Char := "2026-01-05T15:00:00Z".toList

def day6Ts : List Char := "2026-01-11T15:00:00Z".toList

def day8Ts : List Char := "2026-01-13T15:00:00Z".toList

def day0Dt : AwareDT := ⟨1767625200000000, 1767607200000000⟩

def day6Dt : AwareDT := ⟨1768143600000000, 1768125600000000⟩

def day8Dt : AwareDT := ⟨1768316400000000, 1768298400000000⟩

def boAbsEvent (dt : AwareDT) : AttEvent := ⟨"bo".toList, "Alg".toList, absentStr, dt⟩

/-! ### Nutrition lemmas and theorems -/

def isGoalAlertFor (d : Int) : NutAlert → Bool
  | .protein_goal dd _ => dd = d
  | _ => false

/-- Number of `PROTEIN_GOAL` alerts for local date `d` in an alert list. -/
def countGoal (as : List NutAlert) (d : Int) : Nat := as.countP (isGoalAlertFor d)

/-- The trigger condition of the latched `PROTEIN_GOAL` rule as the code
evaluates it (post-update daily protein, pre-update latch flag). -/
def goalCond (st : NutState) (e : NutEvent) : Prop :=
  GOAL_CUTOFF_HOUR ≤ hourOf e.local_dt ∧
  PROTEIN_GOAL_G ≤
    (alistGet st.daily_totals (dateKeyOf e.local_dt) defaultTotals).protein_g + e.protein_g ∧
  alistGet st.protein_goal_announced (dateKeyOf e.local_dt) false = false

instance (st : NutState) (e : NutEvent) : Decidable (goalCond st e) := by
  unfold goalCond; infer_instance

/-- A nutrition record with a valid timestamp whose `protein_g` field holds
the non-numeric string `"abc"`. -/
def nonNumericRec : NutRaw :=
  ⟨some (.vstr "2026-01-15T12:00:00Z".toList), none, some (.vstr "abc".toList),
   none, none, none, none⟩

/-! ### Concrete witnesses -/

def c1St : AttState := ⟨[("Alg".toList, List.replicate 9 absentStr)], [], [], []⟩

def c1Rec : AttRaw :=
  ⟨some (.vstr day0Ts), some (.vstr "bo".toList), some (.vstr "Alg".toList),
   some (.vstr "absent".toList)⟩

def c2St : AttState := ⟨[], [], [], [("bo".toList, [day0Dt])]⟩

def c2Rec : AttRaw :=
  ⟨some (.vstr day6Ts), some (.vstr "bo".toList), some (.vstr "Alg".toList),
   some (.vstr "absent".toList)⟩

def c6St : AttState := ⟨[], [], [(("Alg".toList, 20458), 2)], []⟩

def c6Ev : AttEvent := ⟨"bo".toList, "Alg".toList, lateStr, day0Dt⟩

def c6Rec : AttRaw :=
  ⟨some (.vstr day0Ts), some (.vstr "bo".toList), some (.vstr "Alg".toList),
   some (.vstr "late".toList)⟩

def c5Rec : AttRaw :=
  ⟨some (.vstr day0Ts), some (.vstr "bo".toList), some (.vstr "Alg".toList),
   some (.vstr "excused".toList)⟩

/-! ### Lemmas and claim theorems -/

/-! ### helper lemmas -/

lemma countP_present_late (dq : List (List Char)) :
    dq.countP (fun s => decide (s = presentStr ∨ s = lateStr)) =
      dq.count presentStr + dq.count lateStr := by
  induction dq with
  | nil => simp
  | cons a l ih =>
    simp only [List.countP_cons, List.count_cons, ih]
    by_cases h1 : a = presentStr
    · subst h1
      have : presentStr ≠ lateStr := by decide
      simp [this]
      omega
    · by_cases h2 : a = lateStr
      · subst h2; simp [h1]; omega
      · simp [h1, h2]

/-- C7: window rate is (present+late)/len on a nonempty window and 1 on an
empty one; daily rate is (present+late)/total, 1 when total is 0. -/
theorem attendance_rates_spec :
    attendance_rate_from_deque [] = 1 ∧
    (∀ dq : List (List Char), dq ≠ [] →
      attendance_rate_from_deque dq =
        ((dq.count presentStr : ℚ) + (dq.count lateStr : ℚ)) / (dq.length : ℚ)) ∧
    (∀ c : Counts,
      (c.total = 0 → attendance_rate_daily c = 1) ∧
      (c.total ≠ 0 →
        attendance_rate_daily c = ((c.present : ℚ) + (c.late : ℚ)) / (c.total : ℚ))) := by
  refine ⟨rfl, ?_, ?_⟩
  · intro dq h
    simp only [attendance_rate_from_deque, if_neg h, countP_present_late]
    push_cast
    ring
  · intro c
    constructor
    · intro h; simp [attendance_rate_daily, h]
    · intro h; simp [attendance_rate_daily, h]

theorem attendance_rates_spec_wit :
    attendance_rate_from_deque [presentStr, absentStr] =
      ((([presentStr, absentStr] : List (List Char)).count presentStr : ℚ) +
       (([presentStr, absentStr] : List (List Char)).count lateStr : ℚ)) /
      (([presentStr, absentStr] : List (List Char)).length : ℚ) :=
  attendance_rates_spec.2.1 [presentStr, absentStr] (by decide)

lemma rewriteZ_concat_z (s : List Char) : rewriteZ (s ++ ['Z']) = s ++ plusZeroOffset := by
  simp [rewriteZ, List.getLast?_concat, List.dropLast_concat]

lemma rewriteZ_plusZero (s : List Char) : rewriteZ (s ++ plusZeroOffset) = s ++ plusZeroOffset := by
  have h : s ++ plusZeroOffset = (s ++ ['+', '0', '0', ':', '0']) ++ ['0'] := by
    simp [plusZeroOffset]
  rw [rewriteZ, h, List.getLast?_concat]
  simp

/-- C8: a timestamp written with a trailing `Z` and the same timestamp
written with the explicit offset `+00:00` normalize to the identical local
result (hence identical local date and local time) in both the attendance
normalizer (`parse_ts_to_local`) and the nutrition normalizer
(`parse_ts_utc_to_local`). -/
theorem ts_z_equiv_spec :
    ∀ s : List Char,
      parse_ts_to_local (s ++ ['Z']) = parse_ts_to_local (s ++ plusZeroOffset) ∧
      parse_ts_utc_to_local (s ++ ['Z']) = parse_ts_utc_to_local (s ++ plusZeroOffset) := by
  intro s
  constructor
  · simp only [parse_ts_to_local, rewriteZ_concat_z, rewriteZ_plusZero]
  · simp only [parse_ts_utc_to_local, rewriteZ_concat_z, rewriteZ_plusZero]

lemma mem_ite_sing {α : Type} {p : Prop} [Decidable p] {x a : α} :
    (x ∈ if p then [a] else []) ↔ p ∧ x = a := by
  split_ifs with h <;> simp [h]

lemma alistGet_set {K V : Type} [DecidableEq K] (l : List (K × V)) (k : K) (v : V)
    (k' : K) (d : V) :
    alistGet (alistSet l k v) k' d = if k' = k then v else alistGet l k' d := by
  induction l with
  | nil => simp [alistSet, alistGet]
  | cons p rest ih =>
    by_cases hk : k = p.1
    · simp only [alistSet, if_pos hk, alistGet]
      by_cases h' : k' = k
      · simp [h']
      · simp [h', hk ▸ h']
    · simp only [alistSet, if_neg hk, alistGet]
      by_cases h' : k' = p.1
      · have : k' ≠ k := fun hh => hk (hh ▸ h')
        simp [h', this, Ne.symm hk]
      · simp [h', ih]

lemma length_pushWin (w : List (List Char)) (s : List Char) :
    (pushWin w s).length = min (w.length + 1) ROLLING_WINDOW_SIZE := by
  simp only [pushWin]
  split_ifs with h
  · simp only [List.length_drop, List.length_append, List.length_cons]
    simp at h ⊢
    omega
  · simp at h ⊢
    omega

lemma applyAtt_windows (st : AttState) (e : AttEvent) :
    (applyAttEvent st e).1.course_windows =
      alistSet st.course_windows e.course (newWindow st e) := rfl

lemma applyAtt_daily (st : AttState) (e : AttEvent) :
    (applyAttEvent st e).1.daily_course_counts =
      alistSet st.daily_course_counts (e.course, dateKeyOf e.local_dt)
        (bumpStatus
          ⟨(alistGet st.daily_course_counts (e.course, dateKeyOf e.local_dt) defaultCounts).present,
           (alistGet st.daily_course_counts (e.course, dateKeyOf e.local_dt) defaultCounts).late,
           (alistGet st.daily_course_counts (e.course, dateKeyOf e.local_dt) defaultCounts).absent,
           (alistGet st.daily_course_counts (e.course, dateKeyOf e.local_dt) defaultCounts).total + 1⟩
          e.status) := rfl

lemma applyAtt_late (st : AttState) (e : AttEvent) :
    (applyAttEvent st e).1.late_per_course_day =
      (if e.status = lateStr then
        alistSet st.late_per_course_day (e.course, dateKeyOf e.local_dt)
          (alistGet st.late_per_course_day (e.course, dateKeyOf e.local_dt) 0 + 1)
       else st.late_per_course_day) := rfl

lemma applyAtt_absences (st : AttState) (e : AttEvent) :
    (applyAttEvent st e).1.student_absences =
      (if e.status = absentStr then
        alistSet st.student_absences e.student
          (prune_old_absences
            (alistGet st.student_absences e.student [] ++ [e.local_dt]) e.local_dt)
       else st.student_absences) := rfl

lemma applyAtt_alert_window (st : AttState) (e : AttEvent) (c : List Char) (r : ℚ) :
    AttAlert.drop_window c r ∈ (applyAttEvent st e).2 ↔
      (newWindow st e).length = ROLLING_WINDOW_SIZE ∧
      attendance_rate_from_deque (newWindow st e) < ATTENDANCE_RATE_THRESHOLD ∧
      c = e.course ∧ r = attendance_rate_from_deque (newWindow st e) := by
  simp only [applyAttEvent, newWindow, List.mem_append, mem_ite_sing]
  constructor
  · rintro (((h | h) | h) | h)
    · obtain ⟨⟨h1, h2⟩, heq⟩ := h
      injection heq with hc hr
      exact ⟨h1, h2, hc, hr⟩
    · exact AttAlert.noConfusion h.2
    · exact AttAlert.noConfusion h.2
    · exact AttAlert.noConfusion h.2
  · rintro ⟨h1, h2, rfl, rfl⟩
    exact Or.inl (Or.inl (Or.inl ⟨⟨h1, h2⟩, rfl⟩))

lemma applyAtt_alert_late (st : AttState) (e : AttEvent) (c : List Char) (d : Int) (n : Nat) :
    AttAlert.late_burst c d n ∈ (applyAttEvent st e).2 ↔
      e.status = lateStr ∧ LATE_BURST_THRESHOLD ≤ newLateCount st e ∧
      c = e.course ∧ d = dateKeyOf e.local_dt ∧ n = newLateCount st e := by
  simp only [applyAttEvent, newLateCount, List.mem_append, mem_ite_sing]
  constructor
  · rintro (((h | h) | h) | h)
    · exact AttAlert.noConfusion h.2
    · exact AttAlert.noConfusion h.2
    · obtain ⟨⟨h1, h2⟩, heq⟩ := h
      injection heq with hc hd hn
      exact ⟨h1, h2, hc, hd, hn⟩
    · exact AttAlert.noConfusion h.2
  · rintro ⟨h1, h2, rfl, rfl, rfl⟩
    exact Or.inl (Or.inr ⟨⟨h1, h2⟩, rfl⟩)

lemma applyAtt_alert_chronic (st : AttState) (e : AttEvent) (stu : List Char) (n : Nat) :
    AttAlert.chronic stu n ∈ (applyAttEvent st e).2 ↔
      e.status = absentStr ∧ CHRONIC_ABSENCES_THRESHOLD ≤ (newAbsLog st e).length ∧
      stu = e.student ∧ n = (newAbsLog st e).length := by
  simp only [applyAttEvent, newAbsLog, recordAbsence, List.mem_append, mem_ite_sing]
  constructor
  · rintro (((h | h) | h) | h)
    · exact AttAlert.noConfusion h.2
    · exact AttAlert.noConfusion h.2
    · exact AttAlert.noConfusion h.2
    · obtain ⟨⟨h1, h2⟩, heq⟩ := h
      injection heq with hs hn
      exact ⟨h1, h2, hs, hn⟩
  · rintro ⟨h1, h2, rfl, rfl⟩
    exact Or.inr ⟨⟨h1, h2⟩, rfl⟩

lemma runAtt_cons (st : AttState) (m : Option AttRaw) (ms : List (Option AttRaw)) :
    runAtt st (m :: ms) =
      ((runAtt (process_message_csv st m).1 ms).1,
       (process_message_csv st m).2 ++ (runAtt (process_message_csv st m).1 ms).2) := rfl

lemma runAtt_window_inv (msgs : List (Option AttRaw)) :
    ∀ (st : AttState) (c : List Char),
      (alistGet st.course_windows c []).length + countCourseEvents msgs c < ROLLING_WINDOW_SIZE →
      ∀ r, AttAlert.drop_window c r ∉ (runAtt st msgs).2 := by
  induction msgs with
  | nil => intro st c _ r h; simp [runAtt] at h
  | cons m ms ih =>
    intro st c hlt r hmem
    rw [runAtt_cons] at hmem
    cases hv : validEvent? m with
    | none =>
      have hpm : process_message_csv st m = (st, []) := by
        simp [process_message_csv, hv]
      rw [hpm] at hmem
      have hcnt : countCourseEvents (m :: ms) c = countCourseEvents ms c := by
        simp [countCourseEvents, List.countP_cons, hv]
      refine ih st c (by omega) r ?_
      simpa using hmem
    | some e =>
      have hpm : process_message_csv st m = applyAttEvent st e := by
        simp [process_message_csv, hv]
      rw [hpm] at hmem
      have hcnt : countCourseEvents (m :: ms) c =
          countCourseEvents ms c + (if e.course = c then 1 else 0) := by
        simp [countCourseEvents, List.countP_cons, hv]
      rcases List.mem_append.mp hmem with hhd | htl
      · rw [applyAtt_alert_window] at hhd
        obtain ⟨hlen, -, hc, -⟩ := hhd
        rw [newWindow, length_pushWin] at hlen
        rw [if_pos (hc ▸ rfl)] at hcnt
        subst hc
        simp only [ROLLING_WINDOW_SIZE] at hlen hlt hcnt
        omega
      · refine ih _ c ?_ r htl
        rw [applyAtt_windows, alistGet_set]
        by_cases hc : c = e.course
        · rw [if_pos hc, newWindow, length_pushWin]
          rw [if_pos (by rw [hc])] at hcnt
          subst hc
          simp only [ROLLING_WINDOW_SIZE] at hlt hcnt ⊢
          omega
        · rw [if_neg hc]
          rw [if_neg (fun h => hc h.symm)] at hcnt
          omega

/-- C1: the window-based `ATTENDANCE_DROP_CLASS` alert of a processed event
is emitted exactly when the post-append rolling window of the course of the
event holds exactly `ROLLING_WINDOW_SIZE` observations and its attendance
rate is strictly below `ATTENDANCE_RATE_THRESHOLD`; and over any message
list containing fewer than `ROLLING_WINDOW_SIZE` valid events for a course,
no window alert for that course is ever emitted. -/
theorem attendance_drop_window_rule :
    (∀ (st : AttState) (rec : AttRaw) (e : AttEvent),
       validEvent? (some rec) = some e →
       ∀ (c : List Char) (r : ℚ),
         AttAlert.drop_window c r ∈ (process_message_csv st (some rec)).2 ↔
           (newWindow st e).length = ROLLING_WINDOW_SIZE ∧
           attendance_rate_from_deque (newWindow st e) < ATTENDANCE_RATE_THRESHOLD ∧
           c = e.course ∧ r = attendance_rate_from_deque (newWindow st e)) ∧
    (∀ (msgs : List (Option AttRaw)) (c : List Char),
       countCourseEvents msgs c < ROLLING_WINDOW_SIZE →
       ∀ r, AttAlert.drop_window c r ∉ (runAtt initAttState msgs).2) := by
  constructor
  · intro st rec e hv c r
    simp only [process_message_csv, hv]
    exact applyAtt_alert_window st e c r
  · intro msgs c h r
    refine runAtt_window_inv msgs initAttState c ?_ r
    simpa [initAttState, alistGet] using h

lemma runAtt_late_count (msgs : List (Option AttRaw)) :
    ∀ (st : AttState) (c : List Char) (d : Int),
      alistGet (runAtt st msgs).1.late_per_course_day (c, d) 0 =
        alistGet st.late_per_course_day (c, d) 0 + countLateEvents msgs c d := by
  induction msgs with
  | nil => intro st c d; simp [runAtt, countLateEvents]
  | cons m ms ih =>
    intro st c d
    rw [runAtt_cons]
    cases hv : validEvent? m with
    | none =>
      have hpm : process_message_csv st m = (st, []) := by
        simp [process_message_csv, hv]
      rw [hpm]
      have hcnt : countLateEvents (m :: ms) c d = countLateEvents ms c d := by
        simp [countLateEvents, List.countP_cons, hv]
      rw [ih st c d, hcnt]
    | some e =>
      have hpm : process_message_csv st m = applyAttEvent st e := by
        simp [process_message_csv, hv]
      rw [hpm]
      dsimp only
      rw [ih (applyAttEvent st e).1 c d, applyAtt_late]
      by_cases hs : e.status = lateStr
      · rw [if_pos hs, alistGet_set]
        by_cases hk : (c, d) = (e.course, dateKeyOf e.local_dt)
        · rw [if_pos hk]
          obtain ⟨hc, hd⟩ := Prod.mk.injEq .. ▸ hk
          have hcnt : countLateEvents (m :: ms) c d = countLateEvents ms c d + 1 := by
            simp [countLateEvents, List.countP_cons, hv, hc.symm, hd.symm, hs]
          rw [hcnt, ← hc, ← hd]
          omega
        · rw [if_neg hk]
          have hcnt : countLateEvents (m :: ms) c d = countLateEvents ms c d := by
            have : ¬(e.course = c ∧ dateKeyOf e.local_dt = d ∧ e.status = lateStr) := by
              rintro ⟨h1, h2, -⟩
              exact hk (by rw [h1, h2])
            simp [countLateEvents, List.countP_cons, hv, this]
          rw [hcnt]
      · rw [if_neg hs]
        have hcnt : countLateEvents (m :: ms) c d = countLateEvents ms c d := by
          have : ¬(e.course = c ∧ dateKeyOf e.local_dt = d ∧ e.status = lateStr) := by
            rintro ⟨-, -, h3⟩; exact hs h3
          simp [countLateEvents, List.countP_cons, hv, this]
        rw [hcnt]

/-- C6: the `LATE_BURST_CLASS` alert of a processed event is emitted exactly
when the event is `late` and the incremented late counter of its
(course, local date) pair has reached `LATE_BURST_THRESHOLD`; and the late
counter of every pair always equals the number of valid late events
processed for that pair (so the alert fires on the 3rd late event of a pair
and on every later one, never on a non-late event). -/
theorem late_burst_rule :
    (∀ (st : AttState) (rec : AttRaw) (e : AttEvent),
       validEvent? (some rec) = some e →
       ∀ (c : List Char) (d : Int) (n : Nat),
         AttAlert.late_burst c d n ∈ (process_message_csv st (some rec)).2 ↔
           e.status = lateStr ∧ LATE_BURST_THRESHOLD ≤ newLateCount st e ∧
           c = e.course ∧ d = dateKeyOf e.local_dt ∧ n = newLateCount st e) ∧
    (∀ (msgs : List (Option AttRaw)) (c : List Char) (d : Int),
       alistGet (runAtt initAttState msgs).1.late_per_course_day (c, d) 0 =
         countLateEvents msgs c d) := by
  constructor
  · intro st rec e hv c d n
    simp only [process_message_csv, hv]
    exact applyAtt_alert_late st e c d n
  · intro msgs c d
    rw [runAtt_late_count msgs initAttState c d]
    simp [initAttState, alistGet]

lemma bumpStatus_late (c : Counts) (s : List Char) :
    (bumpStatus c s).late = c.late + (if s = lateStr then 1 else 0) := by
  simp only [bumpStatus]
  by_cases h1 : s = presentStr
  · have h2 : s ≠ lateStr := by subst h1; decide
    rw [if_pos h1, if_neg h2]
    simp
  · rw [if_neg h1]
    by_cases h2 : s = lateStr
    · rw [if_pos h2, if_pos h2]
    · rw [if_neg h2, if_neg h2]
      by_cases h3 : s = absentStr
      · rw [if_pos h3]; simp
      · rw [if_neg h3]; simp

lemma runAtt_late_daily (msgs : List (Option AttRaw)) :
    ∀ (st : AttState),
      (∀ c d, alistGet st.late_per_course_day (c, d) 0 =
        (alistGet st.daily_course_counts (c, d) defaultCounts).late) →
      ∀ c d, alistGet (runAtt st msgs).1.late_per_course_day (c, d) 0 =
        (alistGet (runAtt st msgs).1.daily_course_counts (c, d) defaultCounts).late := by
  induction msgs with
  | nil => intro st h c d; simpa [runAtt] using h c d
  | cons m ms ih =>
    intro st h c d
    rw [runAtt_cons]
    dsimp only
    cases hv : validEvent? m with
    | none =>
      have hpm : process_message_csv st m = (st, []) := by
        simp [process_message_csv, hv]
      rw [hpm]
      exact ih st h c d
    | some e =>
      have hpm : process_message_csv st m = applyAttEvent st e := by
        simp [process_message_csv, hv]
      rw [hpm]
      refine ih _ ?_ c d
      intro c' d'
      rw [applyAtt_late, applyAtt_daily, alistGet_set]
      by_cases hk : (c', d') = (e.course, dateKeyOf e.local_dt)
      · rw [if_pos hk]
        by_cases hs : e.status = lateStr
        · rw [if_pos hs, alistGet_set, if_pos hk, bumpStatus_late, if_pos hs]
          have := h e.course (dateKeyOf e.local_dt)
          dsimp only at this ⊢
          omega
        · rw [if_neg hs, bumpStatus_late, if_neg hs]
          have := h e.course (dateKeyOf e.local_dt)
          rw [hk]
          dsimp only at this ⊢
          omega
      · rw [if_neg hk]
        by_cases hs : e.status = lateStr
        · rw [if_pos hs, alistGet_set, if_neg hk]
          exact h c' d'
        · rw [if_neg hs]
          exact h c' d'

/-- C10: after any message list, the dedicated late counter of every
(course, local date) pair equals the `late` field of that pair daily
counts (the two redundant late counts never diverge; dropped messages
change neither). -/
theorem late_counter_consistent :
    ∀ (msgs : List (Option AttRaw)) (c : List Char) (d : Int),
      alistGet (runAtt initAttState msgs).1.late_per_course_day (c, d) 0 =
        (alistGet (runAtt initAttState msgs).1.daily_course_counts (c, d) defaultCounts).late := by
  intro msgs c d
  exact runAtt_late_daily msgs initAttState (fun _ _ => rfl) c d

/-- C2: the `CHRONIC_ABSENCE_STUDENT` alert of a processed event is emitted
exactly when the event is an absence and the log of the student, after appending
the instant of the event and front-pruning entries older than that
instant minus `CHRONIC_WINDOW_DAYS` days, holds at least
`CHRONIC_ABSENCES_THRESHOLD` entries; in particular absences at day 0 and
day 6 fire the alert on the second absence (count 2), while after absences
at day 0 and day 8 no chronic alert has fired and the day-0 entry has been
pruned from the log. -/
theorem chronic_absence_rule :
    (∀ (st : AttState) (rec : AttRaw) (e : AttEvent),
       validEvent? (some rec) = some e →
       ∀ (stu : List Char) (n : Nat),
         AttAlert.chronic stu n ∈ (process_message_csv st (some rec)).2 ↔
           e.status = absentStr ∧
           CHRONIC_ABSENCES_THRESHOLD ≤ (newAbsLog st e).length ∧
           stu = e.student ∧ n = (newAbsLog st e).length) ∧
    AttAlert.chronic ("bo".toList) 2 ∈
      (runAtt initAttState [absenceMsg day0Ts, absenceMsg day6Ts]).2 ∧
    (∀ (stu : List Char) (n : Nat),
      AttAlert.chronic stu n ∉ (runAtt initAttState [absenceMsg day0Ts, absenceMsg day8Ts]).2) ∧
    alistGet (runAtt initAttState [absenceMsg day0Ts, absenceMsg day8Ts]).1.student_absences
      ("bo".toList) [] = [day8Dt] := by
  have hv0 : validEvent? (absenceMsg day0Ts) = some (boAbsEvent day0Dt) := by decide
  have hv6 : validEvent? (absenceMsg day6Ts) = some (boAbsEvent day6Dt) := by decide
  have hv8 : validEvent? (absenceMsg day8Ts) = some (boAbsEvent day8Dt) := by decide
  refine ⟨?_, ?_, ?_, by decide⟩
  · intro st rec e hv stu n
    simp only [process_message_csv, hv]
    exact applyAtt_alert_chronic st e stu n
  · rw [runAtt_cons]
    refine List.mem_append_right _ ?_
    rw [runAtt_cons]
    refine List.mem_append_left _ ?_
    have hpm : process_message_csv (process_message_csv initAttState (absenceMsg day0Ts)).1
        (absenceMsg day6Ts) =
        applyAttEvent (process_message_csv initAttState (absenceMsg day0Ts)).1
          (boAbsEvent day6Dt) := by
      simp [process_message_csv, hv6]
    rw [hpm, applyAtt_alert_chronic]
    exact ⟨rfl, by decide, rfl, by decide⟩
  · intro stu n hmem
    rw [runAtt_cons] at hmem
    rcases List.mem_append.mp hmem with h | h
    · have hpm : process_message_csv initAttState (absenceMsg day0Ts) =
          applyAttEvent initAttState (boAbsEvent day0Dt) := by
        simp [process_message_csv, hv0]
      rw [hpm, applyAtt_alert_chronic] at h
      exact absurd h.2.1 (by decide)
    · rw [runAtt_cons] at h
      rcases List.mem_append.mp h with h2 | h2
      · have hpm : process_message_csv
            (process_message_csv initAttState (absenceMsg day0Ts)).1 (absenceMsg day8Ts) =
            applyAttEvent (process_message_csv initAttState (absenceMsg day0Ts)).1
              (boAbsEvent day8Dt) := by
          simp [process_message_csv, hv8]
        rw [hpm, applyAtt_alert_chronic] at h2
        exact absurd h2.2.1 (by decide)
      · simp [runAtt] at h2

/-- C5: a malformed attendance record — falsy/missing timestamp, empty
student or course after stripping, or a status outside
`(present, late, absent)` after stripping and lowercasing — produces zero
alerts and leaves every store unchanged, and any subsequent messages are
processed exactly as if the malformed record had never arrived. -/
theorem malformed_record_isolated :
    ∀ (st : AttState) (rec : AttRaw) (student course status0 : List Char),
      getStrip rec.student = some student →
      getStrip rec.course = some course →
      getStrip rec.status = some status0 →
      (truthyOpt rec.ts = false ∨ student = [] ∨ course = [] ∨
        (lowerList status0 ≠ presentStr ∧ lowerList status0 ≠ lateStr ∧
         lowerList status0 ≠ absentStr)) →
      process_message_csv st (some rec) = (st, []) ∧
      (∀ msgs, runAtt (process_message_csv st (some rec)).1 msgs = runAtt st msgs) := by
  intro st rec student course status0 hstu hcrs hsts hbad
  have hval : validEvent? (some rec) = none := by
    simp only [validEvent?, hstu, hcrs, hsts]
    rw [if_pos]
    rcases hbad with h | h | h | h
    · exact Or.inl h
    · exact Or.inr (Or.inr (Or.inl h))
    · exact Or.inr (Or.inl h)
    · exact Or.inr (Or.inr (Or.inr h))
  have hpm : process_message_csv st (some rec) = (st, []) := by
    simp [process_message_csv, hval]
  exact ⟨hpm, fun msgs => by rw [hpm]⟩

lemma runNut_cons (st : NutState) (m : Option NutRaw) (ms : List (Option NutRaw)) :
    runNut st (m :: ms) =
      ((runNut (process_message_json st m).1 ms).1,
       (process_message_json st m).2 ++ (runNut (process_message_json st m).1 ms).2) := rfl

lemma applyNut_recent (st : NutState) (e : NutEvent) :
    (applyNutEvent st e).1.recent = pushRecent st.recent (entryOf e) := rfl

lemma applyNut_ann (st : NutState) (e : NutEvent) :
    (applyNutEvent st e).1.protein_goal_announced =
      if goalCond st e then
        alistSet st.protein_goal_announced (dateKeyOf e.local_dt) true
      else st.protein_goal_announced := by
  simp only [applyNutEvent, goalCond]

lemma countP_ite_sing {α : Type} {p : Prop} [Decidable p] (x : α) (q : α → Bool) :
    (if p then [x] else []).countP q = if p then (if q x then 1 else 0) else 0 := by
  split_ifs with h <;> simp [List.countP_cons, *]

lemma applyNut_goal_count (st : NutState) (e : NutEvent) (d : Int) :
    countGoal (applyNutEvent st e).2 d =
      if goalCond st e ∧ dateKeyOf e.local_dt = d then 1 else 0 := by
  by_cases hP : goalCond st e
  · have hP' := hP
    unfold goalCond at hP'
    simp only [applyNutEvent, countGoal, List.countP_append, countP_ite_sing, if_pos hP']
    simp only [isGoalAlertFor, ite_self, Bool.false_eq_true, if_false]
    by_cases hd : dateKeyOf e.local_dt = d
    · rw [if_pos ⟨hP, hd⟩]
      simp [hd, List.countP_cons, isGoalAlertFor]
    · rw [if_neg (fun h => hd h.2)]
      simp [hd, List.countP_cons, isGoalAlertFor]
  · have hP' : ¬ (GOAL_CUTOFF_HOUR ≤ hourOf e.local_dt ∧
        PROTEIN_GOAL_G ≤
          (alistGet st.daily_totals (dateKeyOf e.local_dt) defaultTotals).protein_g +
            e.protein_g ∧
        alistGet st.protein_goal_announced (dateKeyOf e.local_dt) false = false) := by
      unfold goalCond at hP
      exact hP
    simp only [applyNutEvent, countGoal, List.countP_append, countP_ite_sing, if_neg hP']
    simp only [isGoalAlertFor, ite_self, Bool.false_eq_true, if_false]
    rw [if_neg (fun h => hP h.1)]
    simp

lemma step_goal (st : NutState) (m : Option NutRaw) (d : Int) :
    countGoal (process_message_json st m).2 d +
      (if alistGet (process_message_json st m).1.protein_goal_announced d false = true
       then 0 else 1) ≤
    (if alistGet st.protein_goal_announced d false = true then 0 else 1) := by
  cases hv : validNut? m with
  | none =>
    have hpm : process_message_json st m = (st, []) := by
      simp [process_message_json, hv]
    rw [hpm]
    simp [countGoal]
  | some e =>
    have hpm : process_message_json st m = applyNutEvent st e := by
      simp [process_message_json, hv]
    rw [hpm, applyNut_goal_count, applyNut_ann]
    by_cases hP : goalCond st e
    · rw [if_pos hP, alistGet_set]
      by_cases hd : dateKeyOf e.local_dt = d
      · rw [if_pos ⟨hP, hd⟩, if_pos hd.symm]
        have : alistGet st.protein_goal_announced d false = false := hd ▸ hP.2.2
        rw [this]
        simp
      · rw [if_neg (fun h => hd h.2), if_neg (fun h : d = dateKeyOf e.local_dt => hd h.symm)]
        omega
    · rw [if_neg (fun h => hP h.1), if_neg hP]
      omega

lemma runNut_goal (msgs : List (Option NutRaw)) :
    ∀ (st : NutState) (d : Int),
      countGoal (runNut st msgs).2 d +
        (if alistGet (runNut st msgs).1.protein_goal_announced d false = true then 0 else 1) ≤
      (if alistGet st.protein_goal_announced d false = true then 0 else 1) := by
  induction msgs with
  | nil => intro st d; simp [runNut, countGoal]
  | cons m ms ih =>
    intro st d
    rw [runNut_cons]
    dsimp only
    have h1 := step_goal st m d
    have h2 := ih (process_message_json st m).1 d
    have hsplit : countGoal ((process_message_json st m).2 ++
        (runNut (process_message_json st m).1 ms).2) d =
        countGoal (process_message_json st m).2 d +
          countGoal (runNut (process_message_json st m).1 ms).2 d :=
      List.countP_append _ _ _
    rw [hsplit]
    omega

/-- C3: the nutrition pipeline emits the latched `PROTEIN_GOAL` alert at
most once per local date over any message sequence: after the first
qualifying event of a date latches the flag, no later event of that date
fires it again. -/
theorem protein_goal_once_per_date :
    ∀ (msgs : List (Option NutRaw)) (d : Int),
      countGoal (runNut initNutState msgs).2 d ≤ 1 := by
  intro msgs d
  have h := runNut_goal msgs initNutState d
  have hinit : alistGet initNutState.protein_goal_announced d false = false := rfl
  rw [hinit] at h
  simp only [Bool.false_eq_true, if_false] at h
  omega

/-- C4 counterexample: on a record with a present but non-number-coercible
`protein_g` (`"abc"`), `float(...)` raises and the handler drops the whole
record — the state is unchanged and nothing is appended to the stores —
whereas the claim requires the record to validate with `protein_g = 0` and
be applied (the rolling window would grow by one entry). -/
theorem nutrition_validation_claim_cex :
    process_message_json initNutState (some nonNumericRec) = (initNutState, []) ∧
    (process_message_json initNutState (some nonNumericRec)).1.recent = [] := by
  constructor <;> decide

/-- C4 (amended): a nutrition record with a timestamp validates with each
present numeric field coerced by `float(...)` and each absent numeric field
defaulted to `0`, `meal` defaulted to `"unknown"` when absent and
`training_day` to `false` when absent, and the record is applied to the
stores; but a present numeric field whose value is not coercible to a
number makes `float(...)` raise, and the record is dropped whole (no store
change, no alert) rather than defaulted to 0. -/
theorem nutrition_validation_rule :
    (∀ (st : NutState) (rec : NutRaw) (s : List Char) (dt : AwareDT) (p c f k : ℚ),
       rec.ts = some (.vstr s) → s ≠ [] →
       parse_ts_utc_to_local s = some dt →
       floatOrZero rec.protein_g = some p →
       floatOrZero rec.carb_g = some c →
       floatOrZero rec.fat_g = some f →
       floatOrZero rec.kcal = some k →
       validNut? (some rec) =
         some ⟨s, rec.meal.getD (.vstr unknownStr), p, c, f, k,
               truthy (rec.training_day.getD (.vbool false)), dt⟩ ∧
       (rec.protein_g = none → p = 0) ∧
       (rec.carb_g = none → c = 0) ∧
       (rec.fat_g = none → f = 0) ∧
       (rec.kcal = none → k = 0) ∧
       (rec.meal = none → rec.meal.getD (.vstr unknownStr) = .vstr unknownStr) ∧
       (rec.training_day = none →
         truthy (rec.training_day.getD (.vbool false)) = false) ∧
       (process_message_json st (some rec)).1.recent =
         pushRecent st.recent ⟨rec.meal.getD (.vstr unknownStr), p, c, f, k,
           truthy (rec.training_day.getD (.vbool false))⟩) ∧
    (∀ (st : NutState) (rec : NutRaw) (pv : PyVal),
       (rec.protein_g = some pv ∨ rec.carb_g = some pv ∨ rec.fat_g = some pv ∨
        rec.kcal = some pv) →
       pyFloat pv = none →
       process_message_json st (some rec) = (st, [])) := by
  constructor
  · intro st rec s dt p c f k hts hs hdt hp hc hf hk
    have hval : validNut? (some rec) =
        some ⟨s, rec.meal.getD (.vstr unknownStr), p, c, f, k,
              truthy (rec.training_day.getD (.vbool false)), dt⟩ := by
      simp only [validNut?, hp, hc, hf, hk, hts, truthyOpt, truthy, asStr]
      rw [if_neg (by simp [hs])]
      rw [hdt]
    refine ⟨hval, ?_, ?_, ?_, ?_, ?_, ?_, ?_⟩
    · intro h; rw [h] at hp; exact (Option.some.inj hp).symm
    · intro h; rw [h] at hc; exact (Option.some.inj hc).symm
    · intro h; rw [h] at hf; exact (Option.some.inj hf).symm
    · intro h; rw [h] at hk; exact (Option.some.inj hk).symm
    · intro h; rw [h, Option.getD_none]
    · intro h; rw [h]; rfl
    · have hpm : process_message_json st (some rec) =
          applyNutEvent st ⟨s, rec.meal.getD (.vstr unknownStr), p, c, f, k,
            truthy (rec.training_day.getD (.vbool false)), dt⟩ := by
        simp [process_message_json, hval]
      rw [hpm, applyNut_recent]
      rfl
  · intro st rec pv hfield hpv
    have hval : validNut? (some rec) = none := by
      rcases hfield with h | h | h | h
      · have hz : floatOrZero rec.protein_g = none := by rw [h]; exact hpv
        simp [validNut?, hz]
      · have hz : floatOrZero rec.carb_g = none := by rw [h]; exact hpv
        cases h1 : floatOrZero rec.protein_g <;> simp [validNut?, hz, h1]
      · have hz : floatOrZero rec.fat_g = none := by rw [h]; exact hpv
        cases h1 : floatOrZero rec.protein_g <;>
          cases h2 : floatOrZero rec.carb_g <;> simp [validNut?, hz, h1, h2]
      · have hz : floatOrZero rec.kcal = none := by rw [h]; exact hpv
        cases h1 : floatOrZero rec.protein_g <;>
          cases h2 : floatOrZero rec.carb_g <;>
          cases h3 : floatOrZero rec.fat_g <;> simp [validNut?, hz, h1, h2, h3]
    simp [process_message_json, hval]

/-- Witness instantiating the amended C4 at a mixed record carrying a
timestamp and a numeric `protein_g` of 50 with every other field absent:
`protein_g` is coerced to 50, the absent `carb_g`, `fat_g` and `kcal`
default to 0, `meal` to `"unknown"`, `training_day` to `false`, and the
record is appended to the rolling window. -/
theorem nutrition_validation_rule_wit :
    validNut? (some (⟨some (.vstr "2026-01-15T12:00:00Z".toList),
        none, some (.vnum 50), none, none, none, none⟩ : NutRaw)) =
      some ⟨"2026-01-15T12:00:00Z".toList, .vstr unknownStr, 50, 0, 0, 0, false,
        ⟨1768478400000000, 1768460400000000⟩⟩ ∧
    (process_message_json initNutState (some (⟨some (.vstr "2026-01-15T12:00:00Z".toList),
        none, some (.vnum 50), none, none, none, none⟩ : NutRaw))).1.recent =
      pushRecent initNutState.recent ⟨.vstr unknownStr, 50, 0, 0, 0, false⟩ := by
  have h := nutrition_validation_rule.1 initNutState
    (⟨some (.vstr "2026-01-15T12:00:00Z".toList), none, some (.vnum 50),
      none, none, none, none⟩ : NutRaw)
    ("2026-01-15T12:00:00Z".toList) ⟨1768478400000000, 1768460400000000⟩
    50 0 0 0 rfl (by decide) (by decide) rfl rfl rfl rfl
  exact ⟨h.1, h.2.2.2.2.2.2.2⟩

lemma sorted_append_iff {α : Type} {r : α → α → Prop} {l₁ l₂ : List α} :
    List.Sorted r (l₁ ++ l₂) ↔
      List.Sorted r l₁ ∧ List.Sorted r l₂ ∧ ∀ a ∈ l₁, ∀ b ∈ l₂, r a b :=
  List.pairwise_append

lemma mem_dropWhile_ge (c : Int) :
    ∀ (l : List AwareDT),
      List.Sorted (fun a b : AwareDT => a.utcMicro ≤ b.utcMicro) l →
      ∀ e ∈ l.dropWhile (fun x => x.utcMicro < c), c ≤ e.utcMicro := by
  intro l
  induction l with
  | nil => simp
  | cons a rest ih =>
    intro hs e he
    by_cases hp : a.utcMicro < c
    · rw [List.dropWhile_cons, if_pos (by simpa using hp)] at he
      exact ih ((List.sorted_cons.mp hs).2) e he
    · rw [List.dropWhile_cons, if_neg (by simpa using hp)] at he
      rcases List.mem_cons.mp he with rfl | hmem
      · omega
      · have hle := (List.sorted_cons.mp hs).1 e hmem
        omega

lemma recordAbsence_sublist (q : List AwareDT) (x : AwareDT) :
    List.Sublist (recordAbsence q x) (q ++ [x]) := by
  simpa [recordAbsence, prune_old_absences] using
    List.dropWhile_sublist (l := q ++ [x])
      (p := fun e => e.utcMicro < (subWall x (CHRONIC_WINDOW_DAYS * microPerDay)).utcMicro)

lemma absRun_inv :
    ∀ (ds q : List AwareDT),
      List.Sorted (fun a b : AwareDT => a.utcMicro ≤ b.utcMicro) (q ++ ds) →
      List.Sorted (fun a b : AwareDT => a.utcMicro ≤ b.utcMicro) (ds.foldl recordAbsence q) ∧
      (∀ e ∈ ds.foldl recordAbsence q, e ∈ q ++ ds) := by
  intro ds
  induction ds with
  | nil =>
    intro q hs
    rw [List.foldl_nil]
    constructor
    · simpa using hs
    · intro e he
      simpa using he
  | cons x rest ih =>
    intro q hs
    have hsub : List.Sublist (recordAbsence q x ++ rest) (q ++ (x :: rest)) := by
      have h2 := (recordAbsence_sublist q x).append_right rest
      simpa [List.append_assoc] using h2
    have hsorted : List.Sorted (fun a b : AwareDT => a.utcMicro ≤ b.utcMicro)
        (recordAbsence q x ++ rest) := List.Pairwise.sublist hsub hs
    obtain ⟨hA, hB⟩ := ih (recordAbsence q x) hsorted
    refine ⟨by simpa [List.foldl_cons] using hA, ?_⟩
    intro e he
    have he2 : e ∈ recordAbsence q x ++ rest := hB e (by simpa [List.foldl_cons] using he)
    exact hsub.subset he2

/-- C9: if absence instants are appended in non-decreasing order, then after
each `recordAbsence` (append, then front-prune) every retained entry lies
within the trailing `CHRONIC_WINDOW_DAYS`-day window of the most recent
instant — none is older than the most recent instant minus 7 days, the
cutoff `subWall` computes — and the log stays in timestamp order. -/
theorem absence_log_invariant :
    ∀ (l : List Int) (t : Int),
      List.Sorted (· ≤ ·) (l ++ [t]) →
      (∀ e ∈ ((l ++ [t]).map astimezoneNY).foldl recordAbsence [],
         (subWall (astimezoneNY t) (CHRONIC_WINDOW_DAYS * microPerDay)).utcMicro ≤
           e.utcMicro) ∧
      List.Sorted (fun a b : AwareDT => a.utcMicro ≤ b.utcMicro)
        (((l ++ [t]).map astimezoneNY).foldl recordAbsence []) := by
  intro l t hs
  have hmapSorted : List.Sorted (fun a b : AwareDT => a.utcMicro ≤ b.utcMicro)
      ((l ++ [t]).map astimezoneNY) := List.pairwise_map.mpr hs
  rw [List.map_append] at hmapSorted ⊢
  simp only [List.map_cons, List.map_nil] at hmapSorted ⊢
  have hparts := sorted_append_iff.mp hmapSorted
  have hlSorted := hparts.1
  have hbound : ∀ e ∈ l.map astimezoneNY, e.utcMicro ≤ (astimezoneNY t).utcMicro := by
    intro e he
    exact hparts.2.2 e he (astimezoneNY t) (by simp)
  obtain ⟨hqSorted, hqMem⟩ := absRun_inv (l.map astimezoneNY) [] (by simpa using hlSorted)
  have hfold : ((l.map astimezoneNY) ++ [astimezoneNY t]).foldl recordAbsence [] =
      recordAbsence ((l.map astimezoneNY).foldl recordAbsence []) (astimezoneNY t) := by
    rw [List.foldl_append]
    rfl
  rw [hfold]
  have hqt : List.Sorted (fun a b : AwareDT => a.utcMicro ≤ b.utcMicro)
      (((l.map astimezoneNY).foldl recordAbsence []) ++ [astimezoneNY t]) := by
    rw [sorted_append_iff]
    refine ⟨hqSorted, by simp, ?_⟩
    intro a ha b hb
    rcases List.mem_singleton.mp hb with rfl
    exact hbound a (by simpa using hqMem a ha)
  constructor
  · intro e he
    refine mem_dropWhile_ge _ _ hqt e ?_
    simpa [recordAbsence, prune_old_absences] using he
  · exact List.Pairwise.sublist (recordAbsence_sublist _ _) hqt

/-- Witness for C1: a 10th event for a course whose window held 9 absences
fires the window alert (rate 0 < 0.85). -/
theorem attendance_drop_window_rule_wit :
    AttAlert.drop_window ("Alg".toList)
        (attendance_rate_from_deque (newWindow c1St (boAbsEvent day0Dt))) ∈
      (process_message_csv c1St (some c1Rec)).2 := by
  have hv : validEvent? (some c1Rec) = some (boAbsEvent day0Dt) := by decide
  refine (attendance_drop_window_rule.1 c1St c1Rec (boAbsEvent day0Dt) hv _ _).mpr
    ⟨by decide, ?_, rfl, rfl⟩
  have h1 : newWindow c1St (boAbsEvent day0Dt) = List.replicate 10 absentStr := by decide
  rw [h1]
  have hp : (List.replicate 10 absentStr).count presentStr = 0 := by decide
  have hl : (List.replicate 10 absentStr).count lateStr = 0 := by decide
  have hlen : (List.replicate 10 absentStr).length = 10 := by decide
  simp only [attendance_rate_from_deque, countP_present_late, hp, hl, hlen]
  rw [if_neg (by decide)]
  norm_num [ATTENDANCE_RATE_THRESHOLD]

/-- Witness for C2: with a day-0 absence on the log, a day-6 absence fires
the chronic alert with post-prune count 2. -/
theorem chronic_absence_rule_wit :
    AttAlert.chronic ("bo".toList) ((newAbsLog c2St (boAbsEvent day6Dt)).length) ∈
      (process_message_csv c2St (some c2Rec)).2 ∧
    (newAbsLog c2St (boAbsEvent day6Dt)).length = 2 :=
  ⟨(chronic_absence_rule.1 c2St c2Rec (boAbsEvent day6Dt) (by decide) _ _).mpr
     ⟨rfl, by decide, rfl, rfl⟩,
   by decide⟩

/-- Witness for C6: with 2 lates recorded for (course, date), a third late
event fires the burst alert with count 3. -/
theorem late_burst_rule_wit :
    AttAlert.late_burst ("Alg".toList) (dateKeyOf c6Ev.local_dt) (newLateCount c6St c6Ev) ∈
      (process_message_csv c6St (some c6Rec)).2 ∧
    newLateCount c6St c6Ev = 3 :=
  ⟨(late_burst_rule.1 c6St c6Rec c6Ev (by decide) _ _ _).mpr
     ⟨rfl, by decide, rfl, rfl, rfl⟩,
   by decide⟩

/-- Witness for C5: a record with status `"excused"` is dropped with no
state change and no effect on later processing. -/
theorem malformed_record_isolated_wit :
    process_message_csv initAttState (some c5Rec) = (initAttState, []) ∧
    (∀ msgs, runAtt (process_message_csv initAttState (some c5Rec)).1 msgs =
      runAtt initAttState msgs) :=
  malformed_record_isolated initAttState c5Rec ("bo".toList) ("Alg".toList)
    ("excused".toList) (by decide) (by decide) (by decide)
    (Or.inr (Or.inr (Or.inr (by decide))))

/-- Witness for C9 at two absences six days apart. -/
theorem absence_log_invariant_wit :
    (∀ e ∈ ((([1767625200000000] : List Int) ++ [1768143600000000]).map astimezoneNY).foldl
        recordAbsence [],
       (subWall (astimezoneNY 1768143600000000) (CHRONIC_WINDOW_DAYS * microPerDay)).utcMicro ≤
         e.utcMicro) ∧
    List.Sorted (fun a b : AwareDT => a.utcMicro ≤ b.utcMicro)
      (((([1767625200000000] : List Int) ++ [1768143600000000]).map astimezoneNY).foldl
        recordAbsence []) :=
  absence_log_invariant [1767625200000000] 1768143600000000 (by decide)

